import Mathlib

/-!
# synapse-backregister: the registration handler

A shallow embedding of `cmd/synapse-backregister/main.go`.  The program is one
HTTP handler (the closure passed to `http.ListenAndServe`).  It is embedded as
the function `handler`, which maps the two configuration strings read by
`main`, the behaviour of the outside world (`json.Marshal`, `http.Post`,
`ioutil.ReadAll`) and a request to what is written to `w`, together with the
list of effects performed ahead of the page, in program order.

* Go strings are byte sequences, so they are embedded as `List UInt8`; `len`
  is the length of that list.  Source literals are written `gs "..."`, the
  UTF-8 bytes of the literal.
* The standard-library functions the handler computes with
  (`hmac.New(sha1.New, key)`, `Write`, `Sum`, `hex.EncodeToString`,
  `strings.TrimRight`, `strings.Contains`) are embedded as executable
  definitions following the Go standard library.
* The functions that reach outside the process (`json.Marshal`, `http.Post`,
  `ioutil.ReadAll`) are fields of a `World`: each may return a value or an
  error, as their Go signatures allow.
* What is written to `w` is kept as the status code given to `w.WriteHeader`
  and the data map given to `htmlTemplate.Execute`; the text of the page and
  the `logIfErr` around its rendering are not embedded further.
-/

namespace SynapseBackregister

/-! ## Go strings -/

/-- A Go `string` (and a `[]byte`): a finite sequence of bytes. -/
abbrev GoString := List UInt8

/-- The Go string denoted by a source literal: its UTF-8 encoding. -/
def gs (s : String) : GoString := s.data.flatMap String.utf8EncodeChar

/-- Go's builtin `len` on a string: the number of bytes. -/
def len (s : GoString) : Int := (s.length : Int)

/-! ## crypto/sha1 -/

namespace sha1

/-- The size of a SHA-1 checksum in bytes (`sha1.Size`). -/
def Size : Nat := 20

/-- The block size of SHA-1 in bytes (`sha1.BlockSize`). -/
def BlockSize : Nat := 64

/-- Truncation to `uint32`. -/
def u32 (x : Nat) : Nat := x % 2 ^ 32

/-- The function `bits.RotateLeft32`, on a value below `2 ^ 32`. -/
def RotateLeft32 (x k : Nat) : Nat := u32 ((x <<< k) ||| (x >>> (32 - k)))

/-- The five chaining words `h[0..4]` of a digest. -/
structure digest where
  h0 : Nat
  h1 : Nat
  h2 : Nat
  h3 : Nat
  h4 : Nat
deriving DecidableEq, Repr

/-- The initial chaining value (`init0 .. init4`). -/
def init : digest :=
  ⟨0x67452301, 0xEFCDAB89, 0x98BADCFE, 0x10325476, 0xC3D2E1F0⟩

/-- The big-endian `uint32` at byte offset `j` of `p`. -/
def beUint32 (p : List UInt8) (j : Nat) : Nat :=
  ((p.getD j 0).toNat <<< 24) ||| ((p.getD (j + 1) 0).toNat <<< 16)
    ||| ((p.getD (j + 2) 0).toNat <<< 8) ||| (p.getD (j + 3) 0).toNat

/-- One more word of the message schedule:
`w[i] = RotateLeft32(w[i-3] ^ w[i-8] ^ w[i-14] ^ w[i-16], 1)`. -/
def extend (w : List Nat) : List Nat :=
  let i := w.length
  w ++ [RotateLeft32 (w.getD (i - 3) 0 ^^^ w.getD (i - 8) 0 ^^^ w.getD (i - 14) 0
    ^^^ w.getD (i - 16) 0) 1]

/-- The 80 words of the message schedule of one 64-byte block. -/
def schedule (p : List UInt8) : List Nat :=
  (List.range 64).foldl (fun w _ => extend w) ((List.range 16).map (fun i => beUint32 p (i * 4)))

/-- The round function and constant of round `i`. -/
def fK (i b c d : Nat) : Nat × Nat :=
  if i < 20 then ((b &&& c) ||| ((b ^^^ 0xFFFFFFFF) &&& d), 0x5A827999)
  else if i < 40 then (b ^^^ c ^^^ d, 0x6ED9EBA1)
  else if i < 60 then (((b ||| c) &&& d) ||| (b &&& c), 0x8F1BBCDC)
  else (b ^^^ c ^^^ d, 0xCA62C1D6)

/-- One round: `t := RotateLeft32(a, 5) + f + e + w[i] + K` and
`a, b, c, d, e = t, a, RotateLeft32(b, 30), c, d`. -/
def round (w : List Nat) (s : digest) (i : Nat) : digest :=
  let fk := fK i s.h1 s.h2 s.h3
  let t := u32 (RotateLeft32 s.h0 5 + fk.1 + s.h4 + w.getD i 0 + fk.2)
  ⟨t, s.h0, RotateLeft32 s.h1 30, s.h2, s.h3⟩

/-- The compression of one 64-byte block `p` into the chaining value. -/
def block (dig : digest) (p : List UInt8) : digest :=
  let w := schedule p
  let s := (List.range 80).foldl (round w) dig
  ⟨u32 (dig.h0 + s.h0), u32 (dig.h1 + s.h1), u32 (dig.h2 + s.h2), u32 (dig.h3 + s.h3),
    u32 (dig.h4 + s.h4)⟩

/-- The big-endian bytes of an unsigned integer of `n` bytes. -/
def bePut (n x : Nat) : List UInt8 :=
  (List.range n).map (fun i => UInt8.ofNat (x >>> (8 * (n - 1 - i))))

/-- The padding of `checkSum`: `0x80`, zeros up to 56 mod 64, then the
length in bits as a big-endian `uint64`. -/
def padding (n : Nat) : List UInt8 :=
  let t := if n % 64 < 56 then 56 - n % 64 else 64 + 56 - n % 64
  ((0x80 : UInt8) :: List.replicate (t - 1) (0 : UInt8)) ++ bePut 8 ((n <<< 3) % 2 ^ 64)

/-- Every complete 64-byte block of `p` is compressed, in order. -/
def blocks (dig : digest) (p : List UInt8) : digest :=
  (List.range (p.length / 64)).foldl (fun d i => block d ((p.drop (64 * i)).take 64)) dig

/-- The checksum `sha1.Sum(data)`: 20 bytes. -/
def Sum (data : List UInt8) : List UInt8 :=
  let d := blocks init (data ++ padding data.length)
  bePut 4 d.h0 ++ bePut 4 d.h1 ++ bePut 4 d.h2 ++ bePut 4 d.h3 ++ bePut 4 d.h4

end sha1

/-! ## crypto/hmac -/

namespace hmac

/-- The key as `hmac.New` prepares it: hashed when longer than the block
size, then padded with zeros to the block size. -/
def padKey (key : List UInt8) : List UInt8 :=
  let k := if key.length > sha1.BlockSize then sha1.Sum key else key
  k ++ List.replicate (sha1.BlockSize - k.length) 0

/-- The result of `hm := hmac.New(sha1.New, key); hm.Write(msg); hm.Sum(nil)`. -/
def Sum (key msg : List UInt8) : List UInt8 :=
  let ipad := (padKey key).map (fun b => b ^^^ 0x36)
  let opad := (padKey key).map (fun b => b ^^^ 0x5c)
  sha1.Sum (opad ++ sha1.Sum (ipad ++ msg))

end hmac

/-! ## encoding/hex -/

namespace hex

/-- The table `hextable = "0123456789abcdef"`. -/
def hextable : List UInt8 := gs "0123456789abcdef"

/-- The function `hex.EncodeToString`: two table entries per byte,
`hextable[v>>4]` and `hextable[v&0x0f]`. -/
def EncodeToString (src : List UInt8) : GoString :=
  src.flatMap (fun v => [hextable.getD (v.toNat >>> 4) 0, hextable.getD (v.toNat &&& 0x0f) 0])

end hex

/-! ## strings -/

namespace strings

/-- The function `strings.TrimRight(s, cutset)` for a cutset of ASCII bytes
(the handler's cutset is `"/"`): the trailing bytes of `s` that occur in
`cutset` are removed. -/
def TrimRight (s cutset : GoString) : GoString :=
  s.rdropWhile (fun b => cutset.contains b)

/-- The function `strings.Contains(s, substr)`: `substr` starts at some
offset of `s`. -/
def Contains : GoString → GoString → Bool
  | [], substr => substr.isPrefixOf []
  | c :: s, substr => substr.isPrefixOf (c :: s) || Contains s substr

end strings

/-! ## The handler -/

/-- A Go `error` value, kept as its message. -/
abbrev GoError := String

/-- The value of `auth` in the request data: `map[string]interface{}{"type": ...}`. -/
structure AuthData where
  type : GoString
deriving DecidableEq

/-- The map literal `synapseReqData` (lines 84-91), by its four keys. -/
structure SynapseReqData where
  username : GoString
  password : GoString
  mac : GoString
  auth : AuthData
deriving DecidableEq

/-- The `*http.Response` the handler receives from `http.Post`: its status
code and what `ioutil.ReadAll(regResp.Body)` returns. -/
structure Response where
  StatusCode : Int
  Body : Except GoError GoString

/-- The outside world of one request: the results of `json.Marshal` and of
`http.Post(url, contentType, body)`.  The error result of `json.Marshal` is
kept because the handler has a branch for it (lines 96-100); the standard
encoder does not return an error for a map of strings, so that branch is
entered by no request the running program receives. -/
structure World where
  jsonMarshal : SynapseReqData → Except GoError GoString
  httpPost : GoString → GoString → GoString → Except GoError Response

/-- The request as the handler reads it: `req.Method` and `req.FormValue`. -/
structure Request where
  Method : GoString
  FormValue : GoString → GoString

/-- What the handler writes to `w`: the code given to `w.WriteHeader` and the
data map given to `htmlTemplate.Execute`, which holds at most the key
`"Notice"`. -/
structure Written where
  status : Int
  Notice : Option GoString
deriving DecidableEq

/-- The effects of the handler ahead of the page: the MAC computation
(lines 79-82), `json.Marshal` (94), `http.Post` (103), `ioutil.ReadAll` (112)
and `log.Printf` (106, 114). -/
inductive Effect where
  | hmacSum (key msg : GoString)
  | jsonMarshal (v : SynapseReqData)
  | httpPost (url contentType body : GoString)
  | readAll
  | logPrintf (format : GoString) (err : GoError)
deriving DecidableEq

/-- Lines 79-82: `hex.EncodeToString(hm.Sum(nil))` after
`hm := hmac.New(sha1.New, []byte(sharedSecret)); hm.Write([]byte(uname))`. -/
def hexDigest (sharedSecret uname : GoString) : GoString :=
  hex.EncodeToString (hmac.Sum sharedSecret uname)

/-- Lines 84-91: the request data sent to the registration server. -/
def synapseReqData (uname pass hexDigest : GoString) : SynapseReqData :=
  { username := uname
    password := pass
    mac := hexDigest
    auth := { type := gs "org.matrix.login.shared_secret" } }

/-- Line 102: `strings.TrimRight(matrixServer, "/")`. -/
def serverLocation (matrixServer : GoString) : GoString :=
  strings.TrimRight matrixServer (gs "/")

/-- Line 103: `fmt.Sprintf("%s/_matrix/client/r0/register", serverLocation)`. -/
def registerURL (matrixServer : GoString) : GoString :=
  serverLocation matrixServer ++ gs "/_matrix/client/r0/register"

/-- The handler of lines 62-134, for the configuration `sharedSecret`,
`matrixServer` read by `main`: the page written and the effects performed. -/
def handler (sharedSecret matrixServer : GoString) (world : World) (req : Request) :
    Written × List Effect :=
  if req.Method = gs "POST" then
    let uname := req.FormValue (gs "Username")
    let pass := req.FormValue (gs "Password")
    if uname = gs "" then
      (⟨400, some (gs "Must enter a username")⟩, [])
    else if len pass < 10 then
      (⟨400, some (gs "Password must be 10+ chars")⟩, [])
    else
      let data := synapseReqData uname pass (hexDigest sharedSecret uname)
      let t1 := [Effect.hmacSum sharedSecret uname, Effect.jsonMarshal data]
      match world.jsonMarshal data with
      | .error _ => (⟨400, some (gs "OH NO INTERNAL JSON FAILURE!")⟩, t1)
      | .ok reqJson =>
        let url := registerURL matrixServer
        let t2 := t1 ++ [Effect.httpPost url (gs "application/json") reqJson]
        match world.httpPost url (gs "application/json") reqJson with
        | .error err =>
          (⟨500, some (gs "Error hitting registration server")⟩,
            t2 ++ [Effect.logPrintf (gs "error: %v") err])
        | .ok regResp =>
          if regResp.StatusCode ≥ 400 then
            match regResp.Body with
            | .error err =>
              (⟨regResp.StatusCode, some (gs "Registration error :(!")⟩,
                t2 ++ [Effect.readAll, Effect.logPrintf (gs "error reading synapse body: %v") err])
            | .ok body =>
              if strings.Contains body (gs "User ID already taken") then
                (⟨regResp.StatusCode, some (gs "Username already in use")⟩, t2 ++ [Effect.readAll])
              else
                (⟨regResp.StatusCode, some (gs "Registration error :(!")⟩, t2 ++ [Effect.readAll])
          else
            (⟨200, some (gs "You're registered!")⟩, t2)
  else
    (⟨200, none⟩, [])

/-- The payloads handed to `json.Marshal` in a trace. -/
def marshalled (t : List Effect) : List SynapseReqData :=
  t.filterMap (fun e => match e with
    | Effect.jsonMarshal v => some v
    | _ => none)

/-- The URLs of the upstream calls (`http.Post`) in a trace. -/
def posted (t : List Effect) : List GoString :=
  t.filterMap (fun e => match e with
    | Effect.httpPost url _ _ => some url
    | _ => none)

/-- The MAC computations in a trace, as pairs of key and message. -/
def macs (t : List Effect) : List (GoString × GoString) :=
  t.filterMap (fun e => match e with
    | Effect.hmacSum key msg => some (key, msg)
    | _ => none)

/-! ## Sample requests and worlds -/

/-- A form holding the two fields `Username` and `Password`; `FormValue`
gives `""` for any other key. -/
def formOf (uname pass : GoString) : GoString → GoString :=
  fun k => if k = gs "Username" then uname else if k = gs "Password" then pass else gs ""

/-- A `POST` request submitting the form with the given fields. -/
def postRequest (uname pass : GoString) : Request :=
  ⟨gs "POST", formOf uname pass⟩

/-- A `GET` request (no form). -/
def getRequest : Request :=
  ⟨gs "GET", fun _ => gs ""⟩

/-- A world in which `json.Marshal` and `http.Post` return the given results
whatever their arguments. -/
def worldOf (marshal : Except GoError GoString) (post : Except GoError Response) : World :=
  ⟨fun _ => marshal, fun _ _ _ => post⟩

/-- A world with a working `json.Marshal` and an upstream server answering
with the given status and body. -/
def upstream (status : Int) (body : GoString) : World :=
  worldOf (.ok (gs "json")) (.ok ⟨status, .ok body⟩)

/-! ## Lemmas on the library functions -/

theorem sha1_bePut_length (n x : Nat) : (sha1.bePut n x).length = n := by
  simp [sha1.bePut]

theorem sha1_Sum_length (data : List UInt8) : (sha1.Sum data).length = sha1.Size := by
  simp [sha1.Sum, sha1_bePut_length, sha1.Size]

theorem hmac_Sum_length (key msg : List UInt8) : (hmac.Sum key msg).length = 20 := by
  simp only [hmac.Sum]
  exact sha1_Sum_length _

theorem hex_EncodeToString_length (src : List UInt8) :
    (hex.EncodeToString src).length = 2 * src.length := by
  induction src with
  | nil => rfl
  | cons v vs ih =>
    have h : hex.EncodeToString (v :: vs) =
        [hex.hextable.getD (v.toNat >>> 4) 0, hex.hextable.getD (v.toNat &&& 0x0f) 0]
          ++ hex.EncodeToString vs := by
      simp [hex.EncodeToString]
    rw [h, List.length_append, ih]
    simp only [List.length_cons, List.length_nil]
    omega

theorem hextable_length : hex.hextable.length = 16 := by decide

theorem hextable_getD_mem (i : Nat) (hi : i < 16) :
    hex.hextable.getD i 0 ∈ hex.hextable := by
  have hlt : i < hex.hextable.length := by rw [hextable_length]; exact hi
  rw [List.getD_eq_getElem _ _ hlt]
  exact List.getElem_mem hlt

theorem hex_EncodeToString_mem (src : List UInt8) :
    ∀ b ∈ hex.EncodeToString src, b ∈ hex.hextable := by
  intro b hb
  simp only [hex.EncodeToString, List.mem_flatMap] at hb
  obtain ⟨v, _, hv⟩ := hb
  have h256 : v.toNat < 256 := v.val.isLt
  simp only [List.mem_cons, List.mem_singleton, List.not_mem_nil, or_false] at hv
  rcases hv with h | h
  · rw [h]
    apply hextable_getD_mem
    rw [Nat.shiftRight_eq_div_pow]
    omega
  · rw [h]
    apply hextable_getD_mem
    have := @Nat.and_le_right (v.toNat) 0x0f
    omega

theorem Contains_iff (s substr : GoString) :
    strings.Contains s substr = true ↔ ∃ a b, s = a ++ substr ++ b := by
  have key : strings.Contains s substr = true ↔ substr <:+: s := by
    induction s with
    | nil =>
      simp only [strings.Contains, List.isPrefixOf_iff_prefix]
      constructor
      · intro h
        exact h.isInfix
      · intro h
        rw [List.eq_nil_of_infix_nil h]
    | cons c s ih =>
      simp only [strings.Contains, Bool.or_eq_true, List.isPrefixOf_iff_prefix, ih]
      exact List.infix_cons_iff.symm
  rw [key]
  constructor
  · rintro ⟨a, b, h⟩
    exact ⟨a, b, h.symm⟩
  · rintro ⟨a, b, h⟩
    exact ⟨a, b, h.symm⟩

theorem gs_slash : gs "/" = [47] := by decide

theorem TrimRight_slash_of_not_suffix (e : GoString) (h : ¬ ∃ a, e = a ++ gs "/") :
    strings.TrimRight e (gs "/") = e := by
  rcases List.eq_nil_or_concat e with he | ⟨l, b, he⟩
  · subst he
    rfl
  · rw [List.concat_eq_append] at he
    subst he
    have hb : b ≠ 47 := by
      intro hb
      exact h ⟨l, by rw [hb, gs_slash]⟩
    unfold strings.TrimRight
    rw [List.rdropWhile_concat_neg]
    simpa [gs_slash] using hb

theorem TrimRight_slash_append (e : GoString) :
    strings.TrimRight (e ++ gs "/") (gs "/") = strings.TrimRight e (gs "/") := by
  unfold strings.TrimRight
  rw [gs_slash, List.rdropWhile_concat_pos]
  decide

/-! ## The handler: validation -/

/-- C1: a POST request whose `Username` form value is empty is answered with
status 400 and the notice "Must enter a username", whatever the password;
no effect is performed, and the notice is never the password notice. -/
theorem empty_username_rejected (sharedSecret matrixServer : GoString) (world : World)
    (req : Request) (hm : req.Method = gs "POST")
    (hu : req.FormValue (gs "Username") = gs "") :
    handler sharedSecret matrixServer world req
        = (⟨400, some (gs "Must enter a username")⟩, [])
      ∧ (handler sharedSecret matrixServer world req).1.Notice
        ≠ some (gs "Password must be 10+ chars") := by
  have h : handler sharedSecret matrixServer world req
      = (⟨400, some (gs "Must enter a username")⟩, []) := by
    simp only [handler, hm, hu, if_true]
  rw [h]
  exact ⟨rfl, by decide⟩

/-- C1, at a request whose two fields are both invalid (empty username and a
five-byte password): the username notice is the one reported. -/
theorem empty_username_rejected_witness :
    (postRequest (gs "") (gs "short")).Method = gs "POST"
      ∧ (postRequest (gs "") (gs "short")).FormValue (gs "Username") = gs ""
      ∧ len ((postRequest (gs "") (gs "short")).FormValue (gs "Password")) < 10
      ∧ handler (gs "secret") (gs "https://example.org") (upstream 200 (gs ""))
          (postRequest (gs "") (gs "short"))
        = (⟨400, some (gs "Must enter a username")⟩, [])
      ∧ (handler (gs "secret") (gs "https://example.org") (upstream 200 (gs ""))
          (postRequest (gs "") (gs "short"))).1.Notice
        ≠ some (gs "Password must be 10+ chars") :=
  ⟨by decide, by decide, by decide,
    empty_username_rejected (gs "secret") (gs "https://example.org") (upstream 200 (gs ""))
      (postRequest (gs "") (gs "short")) (by decide) (by decide)⟩

/-- C2 as stated fails: the password "ééééé" has five characters, fewer than
ten, yet with the username "alice" the request is not answered with the
password notice (the upstream server is called and the user is registered). -/
theorem short_in_characters_not_rejected :
    ¬ ∀ (sharedSecret matrixServer : GoString) (world : World) (req : Request) (p : String),
      req.Method = gs "POST" → req.FormValue (gs "Username") ≠ gs "" →
      req.FormValue (gs "Password") = gs p → p.length < 10 →
      (handler sharedSecret matrixServer world req).1
        = ⟨400, some (gs "Password must be 10+ chars")⟩ := by
  intro h
  have h1 := h (gs "secret") (gs "https://example.org") (upstream 200 (gs ""))
    (postRequest (gs "alice") (gs "ééééé")) "ééééé" (by decide) (by decide) (by decide)
    (by decide)
  have h2 : (handler (gs "secret") (gs "https://example.org") (upstream 200 (gs ""))
      (postRequest (gs "alice") (gs "ééééé"))).1 = ⟨200, some (gs "You're registered!")⟩ := by
    decide
  rw [h2] at h1
  exact absurd h1 (by decide)

/-- C2, amended: a POST request with a non-empty username and a password of
fewer than 10 bytes (`len(pass) < 10`) is answered with status 400 and the
notice "Password must be 10+ chars"; no effect is performed. -/
theorem short_password_rejected (sharedSecret matrixServer : GoString) (world : World)
    (req : Request) (hm : req.Method = gs "POST")
    (hu : req.FormValue (gs "Username") ≠ gs "")
    (hp : len (req.FormValue (gs "Password")) < 10) :
    handler sharedSecret matrixServer world req
      = (⟨400, some (gs "Password must be 10+ chars")⟩, []) := by
  simp only [handler, hm, hu, hp, if_true, if_false]

/-- C2, amended, at the username "alice" and the nine-byte password
"123456789". -/
theorem short_password_rejected_witness :
    (postRequest (gs "alice") (gs "123456789")).Method = gs "POST"
      ∧ (postRequest (gs "alice") (gs "123456789")).FormValue (gs "Username") ≠ gs ""
      ∧ len ((postRequest (gs "alice") (gs "123456789")).FormValue (gs "Password")) < 10
      ∧ handler (gs "secret") (gs "https://example.org") (upstream 200 (gs ""))
          (postRequest (gs "alice") (gs "123456789"))
        = (⟨400, some (gs "Password must be 10+ chars")⟩, []) :=
  ⟨by decide, by decide, by decide,
    short_password_rejected (gs "secret") (gs "https://example.org") (upstream 200 (gs ""))
      (postRequest (gs "alice") (gs "123456789")) (by decide) (by decide) (by decide)⟩

/-- A request that fails validation has an empty trace. -/
theorem trace_of_invalid (sharedSecret matrixServer : GoString) (world : World)
    (req : Request)
    (hv : ¬ (req.Method = gs "POST" ∧ req.FormValue (gs "Username") ≠ gs ""
      ∧ 10 ≤ len (req.FormValue (gs "Password")))) :
    (handler sharedSecret matrixServer world req).2 = [] := by
  by_cases hm : req.Method = gs "POST"
  · by_cases hu : req.FormValue (gs "Username") = gs ""
    · simp only [handler, hm, hu, if_true]
    · by_cases hp : len (req.FormValue (gs "Password")) < 10
      · simp only [handler, hm, hu, hp, if_true, if_false]
      · exact absurd ⟨hm, hu, not_lt.mp hp⟩ hv
  · simp only [handler, hm, if_false]

/-- The trace of a validated request starts with the MAC computation and the
`json.Marshal` call; nothing after them is a MAC computation or a
`json.Marshal` call. -/
theorem trace_of_valid (sharedSecret matrixServer : GoString) (world : World)
    (req : Request) (hm : req.Method = gs "POST")
    (hu : req.FormValue (gs "Username") ≠ gs "")
    (hp : 10 ≤ len (req.FormValue (gs "Password"))) :
    ∃ rest, (handler sharedSecret matrixServer world req).2
        = Effect.hmacSum sharedSecret (req.FormValue (gs "Username"))
          :: Effect.jsonMarshal (synapseReqData (req.FormValue (gs "Username"))
              (req.FormValue (gs "Password"))
              (hexDigest sharedSecret (req.FormValue (gs "Username"))))
          :: rest
      ∧ marshalled rest = [] ∧ macs rest = [] := by
  have hp' : ¬ len (req.FormValue (gs "Password")) < 10 := not_lt.mpr hp
  simp only [handler, hm, hu, hp', if_true, if_false]
  cases world.jsonMarshal (synapseReqData (req.FormValue (gs "Username"))
      (req.FormValue (gs "Password"))
      (hexDigest sharedSecret (req.FormValue (gs "Username")))) with
  | error e => exact ⟨[], rfl, rfl, rfl⟩
  | ok reqJson =>
    simp only []
    cases world.httpPost (registerURL matrixServer) (gs "application/json") reqJson with
    | error e => exact ⟨_, rfl, rfl, rfl⟩
    | ok regResp =>
      simp only []
      split
      · cases regResp.Body with
        | error e => exact ⟨_, rfl, rfl, rfl⟩
        | ok body =>
          simp only []
          split
          · exact ⟨_, rfl, rfl, rfl⟩
          · exact ⟨_, rfl, rfl, rfl⟩
      · exact ⟨_, rfl, rfl, rfl⟩

/-- The MAC computations of a validated request: one, of the username under
the shared secret. -/
theorem macs_of_valid (sharedSecret matrixServer : GoString) (world : World)
    (req : Request) (hm : req.Method = gs "POST")
    (hu : req.FormValue (gs "Username") ≠ gs "")
    (hp : 10 ≤ len (req.FormValue (gs "Password"))) :
    macs (handler sharedSecret matrixServer world req).2
      = [(sharedSecret, req.FormValue (gs "Username"))] := by
  obtain ⟨rest, ht, _, hr⟩ := trace_of_valid sharedSecret matrixServer world req hm hu hp
  have h : macs (handler sharedSecret matrixServer world req).2
      = (sharedSecret, req.FormValue (gs "Username")) :: macs rest := by
    rw [ht]
    rfl
  rw [h, hr]

/-- C3: a request that fails validation (not a POST, or an empty username,
or a password of fewer than 10 bytes) has an empty effect trace; so a trace
holding a MAC computation or an upstream call belongs to a request that
passed validation.  A request that passed validation has exactly one MAC
computation in its trace, of the username under the shared secret. -/
theorem effects_only_after_validation (sharedSecret matrixServer : GoString) (world : World)
    (req : Request) :
    (¬ (req.Method = gs "POST" ∧ req.FormValue (gs "Username") ≠ gs ""
          ∧ 10 ≤ len (req.FormValue (gs "Password")))
        → (handler sharedSecret matrixServer world req).2 = [])
      ∧ ((macs (handler sharedSecret matrixServer world req).2 ≠ []
            ∨ posted (handler sharedSecret matrixServer world req).2 ≠ [])
          → (req.Method = gs "POST" ∧ req.FormValue (gs "Username") ≠ gs ""
              ∧ 10 ≤ len (req.FormValue (gs "Password"))))
      ∧ ((req.Method = gs "POST" ∧ req.FormValue (gs "Username") ≠ gs ""
            ∧ 10 ≤ len (req.FormValue (gs "Password")))
          → macs (handler sharedSecret matrixServer world req).2
              = [(sharedSecret, req.FormValue (gs "Username"))]) := by
  have h1 : ¬ (req.Method = gs "POST" ∧ req.FormValue (gs "Username") ≠ gs ""
        ∧ 10 ≤ len (req.FormValue (gs "Password")))
      → (handler sharedSecret matrixServer world req).2 = [] :=
    trace_of_invalid sharedSecret matrixServer world req
  refine ⟨h1, ?_, ?_⟩
  · intro ht
    by_contra hv
    rw [h1 hv] at ht
    rcases ht with ht | ht
    · exact ht rfl
    · exact ht rfl
  · rintro ⟨hm, hu, hp⟩
    exact macs_of_valid sharedSecret matrixServer world req hm hu hp

/-- C3, at a GET request and at a POST request with a nine-byte password:
both traces are empty. -/
theorem effects_only_after_validation_witness :
    (handler (gs "secret") (gs "https://example.org") (upstream 200 (gs "")) getRequest).2 = []
      ∧ (handler (gs "secret") (gs "https://example.org") (upstream 200 (gs ""))
          (postRequest (gs "alice") (gs "123456789"))).2 = [] :=
  ⟨(effects_only_after_validation (gs "secret") (gs "https://example.org")
      (upstream 200 (gs "")) getRequest).1 (by decide),
    (effects_only_after_validation (gs "secret") (gs "https://example.org")
      (upstream 200 (gs "")) (postRequest (gs "alice") (gs "123456789"))).1 (by decide)⟩

/-! ## The handler: after validation -/

/-- The handler on a validated request whose payload `json.Marshal` rejects. -/
theorem handler_marshal_error (sharedSecret matrixServer : GoString) (world : World)
    (req : Request) (err : GoError) (hm : req.Method = gs "POST")
    (hu : req.FormValue (gs "Username") ≠ gs "")
    (hp : 10 ≤ len (req.FormValue (gs "Password")))
    (hj : world.jsonMarshal (synapseReqData (req.FormValue (gs "Username"))
        (req.FormValue (gs "Password"))
        (hexDigest sharedSecret (req.FormValue (gs "Username")))) = .error err) :
    handler sharedSecret matrixServer world req
      = (⟨400, some (gs "OH NO INTERNAL JSON FAILURE!")⟩,
          [Effect.hmacSum sharedSecret (req.FormValue (gs "Username")),
            Effect.jsonMarshal (synapseReqData (req.FormValue (gs "Username"))
              (req.FormValue (gs "Password"))
              (hexDigest sharedSecret (req.FormValue (gs "Username"))))]) := by
  have hp' : ¬ len (req.FormValue (gs "Password")) < 10 := not_lt.mpr hp
  simp only [handler, hm, hu, hp', if_true, if_false, hj]

/-- The handler on a validated request whose upstream call returns an error. -/
theorem handler_post_error (sharedSecret matrixServer : GoString) (world : World)
    (req : Request) (reqJson : GoString) (err : GoError) (hm : req.Method = gs "POST")
    (hu : req.FormValue (gs "Username") ≠ gs "")
    (hp : 10 ≤ len (req.FormValue (gs "Password")))
    (hj : world.jsonMarshal (synapseReqData (req.FormValue (gs "Username"))
        (req.FormValue (gs "Password"))
        (hexDigest sharedSecret (req.FormValue (gs "Username")))) = .ok reqJson)
    (hpost : world.httpPost (registerURL matrixServer) (gs "application/json") reqJson
        = .error err) :
    handler sharedSecret matrixServer world req
      = (⟨500, some (gs "Error hitting registration server")⟩,
          [Effect.hmacSum sharedSecret (req.FormValue (gs "Username")),
            Effect.jsonMarshal (synapseReqData (req.FormValue (gs "Username"))
              (req.FormValue (gs "Password"))
              (hexDigest sharedSecret (req.FormValue (gs "Username")))),
            Effect.httpPost (registerURL matrixServer) (gs "application/json") reqJson,
            Effect.logPrintf (gs "error: %v") err]) := by
  have hp' : ¬ len (req.FormValue (gs "Password")) < 10 := not_lt.mpr hp
  simp only [handler, hm, hu, hp', if_true, if_false, hj, hpost, List.cons_append,
    List.nil_append]

/-- The page the handler writes for a validated request whose upstream call
returns a response. -/
theorem handler_post_ok (sharedSecret matrixServer : GoString) (world : World)
    (req : Request) (reqJson : GoString) (regResp : Response) (hm : req.Method = gs "POST")
    (hu : req.FormValue (gs "Username") ≠ gs "")
    (hp : 10 ≤ len (req.FormValue (gs "Password")))
    (hj : world.jsonMarshal (synapseReqData (req.FormValue (gs "Username"))
        (req.FormValue (gs "Password"))
        (hexDigest sharedSecret (req.FormValue (gs "Username")))) = .ok reqJson)
    (hpost : world.httpPost (registerURL matrixServer) (gs "application/json") reqJson
        = .ok regResp) :
    (handler sharedSecret matrixServer world req).1
      = if regResp.StatusCode ≥ 400 then
          match regResp.Body with
          | .error _ => ⟨regResp.StatusCode, some (gs "Registration error :(!")⟩
          | .ok body =>
            if strings.Contains body (gs "User ID already taken") then
              ⟨regResp.StatusCode, some (gs "Username already in use")⟩
            else ⟨regResp.StatusCode, some (gs "Registration error :(!")⟩
        else ⟨200, some (gs "You're registered!")⟩ := by
  have hp' : ¬ len (req.FormValue (gs "Password")) < 10 := not_lt.mpr hp
  simp only [handler, hm, hu, hp', if_true, if_false, hj, hpost]
  split
  · cases regResp.Body with
    | error e => rfl
    | ok body =>
      simp only []
      split <;> rfl
  · rfl

/-- The upstream calls of a validated request whose payload `json.Marshal`
accepts: one, to the registration URL. -/
theorem posted_of_marshal_ok (sharedSecret matrixServer : GoString) (world : World)
    (req : Request) (reqJson : GoString) (hm : req.Method = gs "POST")
    (hu : req.FormValue (gs "Username") ≠ gs "")
    (hp : 10 ≤ len (req.FormValue (gs "Password")))
    (hj : world.jsonMarshal (synapseReqData (req.FormValue (gs "Username"))
        (req.FormValue (gs "Password"))
        (hexDigest sharedSecret (req.FormValue (gs "Username")))) = .ok reqJson) :
    posted (handler sharedSecret matrixServer world req).2 = [registerURL matrixServer] := by
  have hp' : ¬ len (req.FormValue (gs "Password")) < 10 := not_lt.mpr hp
  simp only [handler, hm, hu, hp', if_true, if_false, hj]
  cases world.httpPost (registerURL matrixServer) (gs "application/json") reqJson with
  | error e => rfl
  | ok regResp =>
    simp only []
    split
    · cases regResp.Body with
      | error e => rfl
      | ok body =>
        simp only []
        split <;> rfl
    · rfl

/-- The notice of a validated request is not the password notice. -/
theorem notice_of_valid (sharedSecret matrixServer : GoString) (world : World)
    (req : Request) (hm : req.Method = gs "POST")
    (hu : req.FormValue (gs "Username") ≠ gs "")
    (hp : 10 ≤ len (req.FormValue (gs "Password"))) :
    (handler sharedSecret matrixServer world req).1.Notice
      ≠ some (gs "Password must be 10+ chars") := by
  have hp' : ¬ len (req.FormValue (gs "Password")) < 10 := not_lt.mpr hp
  simp only [handler, hm, hu, hp', if_true, if_false]
  cases world.jsonMarshal (synapseReqData (req.FormValue (gs "Username"))
      (req.FormValue (gs "Password"))
      (hexDigest sharedSecret (req.FormValue (gs "Username")))) with
  | error e => exact fun h => absurd (Option.some.inj h) (by decide)
  | ok reqJson =>
    simp only []
    cases world.httpPost (registerURL matrixServer) (gs "application/json") reqJson with
    | error e => exact fun h => absurd (Option.some.inj h) (by decide)
    | ok regResp =>
      simp only []
      split
      · cases regResp.Body with
        | error e => exact fun h => absurd (Option.some.inj h) (by decide)
        | ok body =>
          simp only []
          split
          · exact fun h => absurd (Option.some.inj h) (by decide)
          · exact fun h => absurd (Option.some.inj h) (by decide)
      · exact fun h => absurd (Option.some.inj h) (by decide)

theorem notice_taken_ne_rejected :
    gs "Username already in use" ≠ gs "Registration error :(!" := by decide

/-- C4: for a validated request whose upstream call returns a response with
status code `s >= 400`, the status written is `s`; the notice is "Username
already in use" exactly when the body was read and contains "User ID already
taken"; in every other case (a failed read included) the notice is
"Registration error :(!". -/
theorem upstream_error_classified (sharedSecret matrixServer : GoString) (world : World)
    (req : Request) (reqJson : GoString) (regResp : Response) (hm : req.Method = gs "POST")
    (hu : req.FormValue (gs "Username") ≠ gs "")
    (hp : 10 ≤ len (req.FormValue (gs "Password")))
    (hj : world.jsonMarshal (synapseReqData (req.FormValue (gs "Username"))
        (req.FormValue (gs "Password"))
        (hexDigest sharedSecret (req.FormValue (gs "Username")))) = .ok reqJson)
    (hpost : world.httpPost (registerURL matrixServer) (gs "application/json") reqJson
        = .ok regResp)
    (hs : regResp.StatusCode ≥ 400) :
    (handler sharedSecret matrixServer world req).1.status = regResp.StatusCode
      ∧ ((handler sharedSecret matrixServer world req).1.Notice
            = some (gs "Username already in use")
          ↔ ∃ body, regResp.Body = .ok body
              ∧ ∃ a b, body = a ++ gs "User ID already taken" ++ b)
      ∧ ((¬ ∃ body, regResp.Body = .ok body
              ∧ ∃ a b, body = a ++ gs "User ID already taken" ++ b)
          → (handler sharedSecret matrixServer world req).1.Notice
              = some (gs "Registration error :(!")) := by
  rw [handler_post_ok sharedSecret matrixServer world req reqJson regResp hm hu hp hj hpost,
    if_pos hs]
  cases hb : regResp.Body with
  | error e =>
    refine ⟨rfl, ⟨fun h => ?_, fun h => ?_⟩, fun _ => rfl⟩
    · exact absurd (Option.some.inj h).symm notice_taken_ne_rejected
    · obtain ⟨body, hbody, _⟩ := h
      cases hbody
  | ok body =>
    simp only []
    by_cases hc : strings.Contains body (gs "User ID already taken") = true
    · rw [if_pos hc]
      have hex := (Contains_iff _ _).mp hc
      exact ⟨rfl, ⟨fun _ => ⟨body, rfl, hex⟩, fun _ => rfl⟩,
        fun hn => absurd ⟨body, rfl, hex⟩ hn⟩
    · rw [if_neg hc]
      refine ⟨rfl, ⟨fun h => ?_, fun h => ?_⟩, fun _ => rfl⟩
      · exact absurd (Option.some.inj h).symm notice_taken_ne_rejected
      · obtain ⟨body', hbody, hex⟩ := h
        cases hbody
        exact absurd ((Contains_iff _ _).mpr hex) hc

/-- C4, at an upstream answer of status 409 whose body contains "User ID
already taken": the status written is 409 and the notice is "Username already
in use". -/
theorem upstream_error_classified_witness :
    (postRequest (gs "alice") (gs "0123456789")).Method = gs "POST"
      ∧ (postRequest (gs "alice") (gs "0123456789")).FormValue (gs "Username") ≠ gs ""
      ∧ 10 ≤ len ((postRequest (gs "alice") (gs "0123456789")).FormValue (gs "Password"))
      ∧ (409 : Int) ≥ 400
      ∧ (handler (gs "secret") (gs "https://example.org")
          (upstream 409 (gs "M_USER_IN_USE: User ID already taken."))
          (postRequest (gs "alice") (gs "0123456789"))).1.status = 409
      ∧ (handler (gs "secret") (gs "https://example.org")
          (upstream 409 (gs "M_USER_IN_USE: User ID already taken."))
          (postRequest (gs "alice") (gs "0123456789"))).1.Notice
        = some (gs "Username already in use") :=
  have h := upstream_error_classified (gs "secret") (gs "https://example.org")
    (upstream 409 (gs "M_USER_IN_USE: User ID already taken."))
    (postRequest (gs "alice") (gs "0123456789")) (gs "json")
    ⟨409, .ok (gs "M_USER_IN_USE: User ID already taken.")⟩
    (by decide) (by decide) (by decide) rfl rfl (by decide)
  ⟨by decide, by decide, by decide, by decide, h.1,
    h.2.1.mpr ⟨gs "M_USER_IN_USE: User ID already taken.", rfl,
      gs "M_USER_IN_USE: ", gs ".", by decide⟩⟩

/-- C5 as stated fails: at the POST request of username "alice" and password
"0123456789", when `json.Marshal` returns an error, the status written is
400, not 500. -/
theorem serialization_failure_not_500 :
    ¬ ∀ (sharedSecret matrixServer : GoString) (world : World) (req : Request)
      (err : GoError),
      req.Method = gs "POST" → req.FormValue (gs "Username") ≠ gs "" →
      10 ≤ len (req.FormValue (gs "Password")) →
      world.jsonMarshal (synapseReqData (req.FormValue (gs "Username"))
        (req.FormValue (gs "Password"))
        (hexDigest sharedSecret (req.FormValue (gs "Username")))) = .error err →
      (handler sharedSecret matrixServer world req).1.status = 500
        ∧ posted (handler sharedSecret matrixServer world req).2 = [] := by
  intro h
  have h1 := (h (gs "secret") (gs "https://example.org")
    (worldOf (.error "json: unsupported value") (.ok ⟨200, .ok (gs "")⟩))
    (postRequest (gs "alice") (gs "0123456789")) "json: unsupported value"
    (by decide) (by decide) (by decide) rfl).1
  rw [handler_marshal_error (gs "secret") (gs "https://example.org")
    (worldOf (.error "json: unsupported value") (.ok ⟨200, .ok (gs "")⟩))
    (postRequest (gs "alice") (gs "0123456789")) "json: unsupported value"
    (by decide) (by decide) (by decide) rfl] at h1
  exact absurd h1 (by decide)

/-- C5, amended: for a validated request whose payload `json.Marshal`
rejects, the handler writes status 400 with the notice "OH NO INTERNAL JSON
FAILURE!" (lines 96-99), and no upstream call is made: the trace ends with
the `json.Marshal` call. -/
theorem serialization_failure_written_400 (sharedSecret matrixServer : GoString)
    (world : World) (req : Request) (err : GoError) (hm : req.Method = gs "POST")
    (hu : req.FormValue (gs "Username") ≠ gs "")
    (hp : 10 ≤ len (req.FormValue (gs "Password")))
    (hj : world.jsonMarshal (synapseReqData (req.FormValue (gs "Username"))
        (req.FormValue (gs "Password"))
        (hexDigest sharedSecret (req.FormValue (gs "Username")))) = .error err) :
    (handler sharedSecret matrixServer world req).1
        = ⟨400, some (gs "OH NO INTERNAL JSON FAILURE!")⟩
      ∧ posted (handler sharedSecret matrixServer world req).2 = []
      ∧ (handler sharedSecret matrixServer world req).2
        = [Effect.hmacSum sharedSecret (req.FormValue (gs "Username")),
            Effect.jsonMarshal (synapseReqData (req.FormValue (gs "Username"))
              (req.FormValue (gs "Password"))
              (hexDigest sharedSecret (req.FormValue (gs "Username"))))] := by
  rw [handler_marshal_error sharedSecret matrixServer world req err hm hu hp hj]
  exact ⟨rfl, rfl, rfl⟩

/-- C5, amended, at the username "alice" and the password "0123456789" with
a failing `json.Marshal`. -/
theorem serialization_failure_written_400_witness :
    (postRequest (gs "alice") (gs "0123456789")).Method = gs "POST"
      ∧ (postRequest (gs "alice") (gs "0123456789")).FormValue (gs "Username") ≠ gs ""
      ∧ 10 ≤ len ((postRequest (gs "alice") (gs "0123456789")).FormValue (gs "Password"))
      ∧ (handler (gs "secret") (gs "https://example.org")
          (worldOf (.error "json: unsupported value") (.ok ⟨200, .ok (gs "")⟩))
          (postRequest (gs "alice") (gs "0123456789"))).1
        = ⟨400, some (gs "OH NO INTERNAL JSON FAILURE!")⟩
      ∧ posted (handler (gs "secret") (gs "https://example.org")
          (worldOf (.error "json: unsupported value") (.ok ⟨200, .ok (gs "")⟩))
          (postRequest (gs "alice") (gs "0123456789"))).2 = [] :=
  have h := serialization_failure_written_400 (gs "secret") (gs "https://example.org")
    (worldOf (.error "json: unsupported value") (.ok ⟨200, .ok (gs "")⟩))
    (postRequest (gs "alice") (gs "0123456789")) "json: unsupported value"
    (by decide) (by decide) (by decide) rfl
  ⟨by decide, by decide, by decide, h.1, h.2.1⟩

/-- C6: for an endpoint `e` that does not end in "/", the registration URL
built from `e` and the one built from `e ++ "/"` are both
`e ++ "/_matrix/client/r0/register"`. -/
theorem registerURL_trailing_slash (e : GoString) (h : ¬ ∃ a, e = a ++ gs "/") :
    registerURL e = e ++ gs "/_matrix/client/r0/register"
      ∧ registerURL (e ++ gs "/") = e ++ gs "/_matrix/client/r0/register" := by
  unfold registerURL serverLocation
  rw [TrimRight_slash_append, TrimRight_slash_of_not_suffix e h]
  exact ⟨rfl, rfl⟩

/-- C6, at the endpoint "https://example.org": with and without the trailing
"/" the URL is "https://example.org/_matrix/client/r0/register". -/
theorem registerURL_trailing_slash_witness :
    (¬ ∃ a, gs "https://example.org" = a ++ gs "/")
      ∧ registerURL (gs "https://example.org")
        = gs "https://example.org/_matrix/client/r0/register"
      ∧ registerURL (gs "https://example.org/")
        = gs "https://example.org/_matrix/client/r0/register" :=
  have hn : ¬ ∃ a, gs "https://example.org" = a ++ gs "/" := by
    rintro ⟨a, ha⟩
    have h1 : (gs "https://example.org").getLast? = (a ++ gs "/").getLast? := by rw [← ha]
    rw [gs_slash, List.getLast?_append, List.getLast?_singleton] at h1
    have h2 : (gs "https://example.org").getLast? = some 47 := h1
    exact absurd h2 (by decide)
  ⟨hn, (registerURL_trailing_slash (gs "https://example.org") hn).1,
    (registerURL_trailing_slash (gs "https://example.org") hn).2⟩

/-! ## The MAC -/

set_option maxRecDepth 100000 in
/-- RFC 2202, test case 2 of HMAC-SHA-1, through `hexDigest`. -/
theorem hexDigest_rfc2202 :
    hexDigest (gs "Jefe") (gs "what do ya want for nothing?")
      = gs "effcdf6ae5eb2fa2d27416d5f184df9c259a7c79" := by
  decide

/-- The one payload of a validated request carries the hex digest as `mac`. -/
theorem marshalled_mac_of_valid (sharedSecret matrixServer : GoString) (world : World)
    (req : Request) (hm : req.Method = gs "POST")
    (hu : req.FormValue (gs "Username") ≠ gs "")
    (hp : 10 ≤ len (req.FormValue (gs "Password"))) :
    (marshalled (handler sharedSecret matrixServer world req).2).map SynapseReqData.mac
      = [hex.EncodeToString (hmac.Sum sharedSecret (req.FormValue (gs "Username")))] := by
  obtain ⟨rest, ht, hr, _⟩ := trace_of_valid sharedSecret matrixServer world req hm hu hp
  have h : marshalled (handler sharedSecret matrixServer world req).2
      = synapseReqData (req.FormValue (gs "Username")) (req.FormValue (gs "Password"))
          (hexDigest sharedSecret (req.FormValue (gs "Username"))) :: marshalled rest := by
    rw [ht]
    rfl
  rw [h, hr]
  rfl

/-- C7: two validated requests with the same non-empty username and any two
passwords send the same `mac`: the hex encoding of the HMAC-SHA-1 digest of
the username keyed by the shared secret, 40 bytes long, each one of
"0123456789abcdef". -/
theorem mac_independent_of_password (sharedSecret matrixServer : GoString)
    (world1 world2 : World) (req1 req2 : Request)
    (hm1 : req1.Method = gs "POST") (hm2 : req2.Method = gs "POST")
    (hu : req1.FormValue (gs "Username") ≠ gs "")
    (hsame : req2.FormValue (gs "Username") = req1.FormValue (gs "Username"))
    (hp1 : 10 ≤ len (req1.FormValue (gs "Password")))
    (hp2 : 10 ≤ len (req2.FormValue (gs "Password"))) :
    (marshalled (handler sharedSecret matrixServer world1 req1).2).map SynapseReqData.mac
        = [hex.EncodeToString (hmac.Sum sharedSecret (req1.FormValue (gs "Username")))]
      ∧ (marshalled (handler sharedSecret matrixServer world2 req2).2).map SynapseReqData.mac
        = [hex.EncodeToString (hmac.Sum sharedSecret (req1.FormValue (gs "Username")))]
      ∧ (hex.EncodeToString (hmac.Sum sharedSecret (req1.FormValue (gs "Username")))).length
        = 40
      ∧ ∀ b ∈ hex.EncodeToString (hmac.Sum sharedSecret (req1.FormValue (gs "Username"))),
          b ∈ gs "0123456789abcdef" := by
  refine ⟨marshalled_mac_of_valid sharedSecret matrixServer world1 req1 hm1 hu hp1, ?_, ?_, ?_⟩
  · rw [← hsame]
    exact marshalled_mac_of_valid sharedSecret matrixServer world2 req2 hm2 (hsame ▸ hu) hp2
  · rw [hex_EncodeToString_length, hmac_Sum_length]
  · exact hex_EncodeToString_mem _

/-- C7, at the username "alice" with the passwords "0123456789" and
"correct horse battery staple", against two different upstream servers. -/
theorem mac_independent_of_password_witness :
    gs "0123456789" ≠ gs "correct horse battery staple"
      ∧ (marshalled (handler (gs "secret") (gs "https://example.org") (upstream 200 (gs ""))
          (postRequest (gs "alice") (gs "0123456789"))).2).map SynapseReqData.mac
        = [hex.EncodeToString (hmac.Sum (gs "secret") (gs "alice"))]
      ∧ (marshalled (handler (gs "secret") (gs "https://example.org") (upstream 500 (gs ""))
          (postRequest (gs "alice") (gs "correct horse battery staple"))).2).map
            SynapseReqData.mac
        = [hex.EncodeToString (hmac.Sum (gs "secret") (gs "alice"))]
      ∧ (hex.EncodeToString (hmac.Sum (gs "secret") (gs "alice"))).length = 40 :=
  have h := mac_independent_of_password (gs "secret") (gs "https://example.org")
    (upstream 200 (gs "")) (upstream 500 (gs ""))
    (postRequest (gs "alice") (gs "0123456789"))
    (postRequest (gs "alice") (gs "correct horse battery staple"))
    (by decide) (by decide) (by decide) (by decide) (by decide) (by decide)
  ⟨by decide, h.1, h.2.1, h.2.2.1⟩

/-! ## The handler: the upstream answer -/

/-- C8: for a validated request whose upstream call returns a response with
a status code below 400 (any 1xx, 2xx or 3xx code), the handler writes
status 200 with the notice "You're registered!". -/
theorem registered_below_400 (sharedSecret matrixServer : GoString) (world : World)
    (req : Request) (reqJson : GoString) (regResp : Response) (hm : req.Method = gs "POST")
    (hu : req.FormValue (gs "Username") ≠ gs "")
    (hp : 10 ≤ len (req.FormValue (gs "Password")))
    (hj : world.jsonMarshal (synapseReqData (req.FormValue (gs "Username"))
        (req.FormValue (gs "Password"))
        (hexDigest sharedSecret (req.FormValue (gs "Username")))) = .ok reqJson)
    (hpost : world.httpPost (registerURL matrixServer) (gs "application/json") reqJson
        = .ok regResp)
    (hs : regResp.StatusCode < 400) :
    (handler sharedSecret matrixServer world req).1
      = ⟨200, some (gs "You're registered!")⟩ := by
  rw [handler_post_ok sharedSecret matrixServer world req reqJson regResp hm hu hp hj hpost,
    if_neg (not_le.mpr hs)]

/-- C8, at the upstream status codes 200, 101 and 302. -/
theorem registered_below_400_witness :
    (postRequest (gs "alice") (gs "0123456789")).Method = gs "POST"
      ∧ (postRequest (gs "alice") (gs "0123456789")).FormValue (gs "Username") ≠ gs ""
      ∧ 10 ≤ len ((postRequest (gs "alice") (gs "0123456789")).FormValue (gs "Password"))
      ∧ (handler (gs "secret") (gs "https://example.org") (upstream 200 (gs ""))
          (postRequest (gs "alice") (gs "0123456789"))).1
        = ⟨200, some (gs "You're registered!")⟩
      ∧ (handler (gs "secret") (gs "https://example.org") (upstream 101 (gs ""))
          (postRequest (gs "alice") (gs "0123456789"))).1
        = ⟨200, some (gs "You're registered!")⟩
      ∧ (handler (gs "secret") (gs "https://example.org") (upstream 302 (gs ""))
          (postRequest (gs "alice") (gs "0123456789"))).1
        = ⟨200, some (gs "You're registered!")⟩ :=
  ⟨by decide, by decide, by decide,
    registered_below_400 (gs "secret") (gs "https://example.org") (upstream 200 (gs ""))
      (postRequest (gs "alice") (gs "0123456789")) (gs "json") ⟨200, .ok (gs "")⟩
      (by decide) (by decide) (by decide) rfl rfl (by decide),
    registered_below_400 (gs "secret") (gs "https://example.org") (upstream 101 (gs ""))
      (postRequest (gs "alice") (gs "0123456789")) (gs "json") ⟨101, .ok (gs "")⟩
      (by decide) (by decide) (by decide) rfl rfl (by decide),
    registered_below_400 (gs "secret") (gs "https://example.org") (upstream 302 (gs ""))
      (postRequest (gs "alice") (gs "0123456789")) (gs "json") ⟨302, .ok (gs "")⟩
      (by decide) (by decide) (by decide) rfl rfl (by decide)⟩

/-- C9: for a validated request whose upstream call returns an error, the
handler writes status 500 with the notice "Error hitting registration
server", and its trace holds exactly one upstream call, to the registration
URL. -/
theorem upstream_unreachable (sharedSecret matrixServer : GoString) (world : World)
    (req : Request) (reqJson : GoString) (err : GoError) (hm : req.Method = gs "POST")
    (hu : req.FormValue (gs "Username") ≠ gs "")
    (hp : 10 ≤ len (req.FormValue (gs "Password")))
    (hj : world.jsonMarshal (synapseReqData (req.FormValue (gs "Username"))
        (req.FormValue (gs "Password"))
        (hexDigest sharedSecret (req.FormValue (gs "Username")))) = .ok reqJson)
    (hpost : world.httpPost (registerURL matrixServer) (gs "application/json") reqJson
        = .error err) :
    (handler sharedSecret matrixServer world req).1
        = ⟨500, some (gs "Error hitting registration server")⟩
      ∧ posted (handler sharedSecret matrixServer world req).2 = [registerURL matrixServer]
      ∧ (posted (handler sharedSecret matrixServer world req).2).length = 1 := by
  rw [handler_post_error sharedSecret matrixServer world req reqJson err hm hu hp hj hpost]
  exact ⟨rfl, rfl, rfl⟩

/-- C9, at an upstream server that refuses the connection. -/
theorem upstream_unreachable_witness :
    (postRequest (gs "alice") (gs "0123456789")).Method = gs "POST"
      ∧ (postRequest (gs "alice") (gs "0123456789")).FormValue (gs "Username") ≠ gs ""
      ∧ 10 ≤ len ((postRequest (gs "alice") (gs "0123456789")).FormValue (gs "Password"))
      ∧ (handler (gs "secret") (gs "https://example.org")
          (worldOf (.ok (gs "json")) (.error "connection refused"))
          (postRequest (gs "alice") (gs "0123456789"))).1
        = ⟨500, some (gs "Error hitting registration server")⟩
      ∧ (posted (handler (gs "secret") (gs "https://example.org")
          (worldOf (.ok (gs "json")) (.error "connection refused"))
          (postRequest (gs "alice") (gs "0123456789"))).2).length = 1 :=
  have h := upstream_unreachable (gs "secret") (gs "https://example.org")
    (worldOf (.ok (gs "json")) (.error "connection refused"))
    (postRequest (gs "alice") (gs "0123456789")) (gs "json") "connection refused"
    (by decide) (by decide) (by decide) rfl rfl
  ⟨by decide, by decide, by decide, h.1, h.2.2⟩

/-- C10: the password check counts bytes.  A POST request reaches the MAC
computation exactly when its username is non-empty and its password has at
least 10 bytes; the password "ééééé" has 5 characters and 10 bytes, and with
a non-empty username it is not answered with the password notice: the MAC is
computed and, once `json.Marshal` has returned the body, the upstream call is
made. -/
theorem password_length_counts_bytes :
    (∀ (sharedSecret matrixServer : GoString) (world : World) (req : Request),
        req.Method = gs "POST" →
        (macs (handler sharedSecret matrixServer world req).2 ≠ []
          ↔ req.FormValue (gs "Username") ≠ gs ""
            ∧ 10 ≤ (req.FormValue (gs "Password")).length))
      ∧ "ééééé".length = 5 ∧ (gs "ééééé").length = 10
      ∧ ∀ (sharedSecret matrixServer : GoString) (world : World) (req : Request),
          req.Method = gs "POST" → req.FormValue (gs "Username") ≠ gs "" →
          req.FormValue (gs "Password") = gs "ééééé" →
          (handler sharedSecret matrixServer world req).1.Notice
              ≠ some (gs "Password must be 10+ chars")
            ∧ macs (handler sharedSecret matrixServer world req).2
              = [(sharedSecret, req.FormValue (gs "Username"))]
            ∧ ∀ reqJson, world.jsonMarshal (synapseReqData (req.FormValue (gs "Username"))
                  (gs "ééééé") (hexDigest sharedSecret (req.FormValue (gs "Username"))))
                = .ok reqJson →
                posted (handler sharedSecret matrixServer world req).2
                  = [registerURL matrixServer] := by
  have h10 : len (gs "ééééé") = 10 := by decide
  refine ⟨?_, by decide, by decide, ?_⟩
  · intro sharedSecret matrixServer world req hm
    constructor
    · intro ht
      by_contra hv
      apply ht
      rw [trace_of_invalid sharedSecret matrixServer world req]
      · rfl
      · rintro ⟨_, hu, hp⟩
        exact hv ⟨hu, by unfold len at hp; exact_mod_cast hp⟩
    · rintro ⟨hu, hp⟩
      have hp' : 10 ≤ len (req.FormValue (gs "Password")) := by
        unfold len
        exact_mod_cast hp
      rw [macs_of_valid sharedSecret matrixServer world req hm hu hp']
      exact List.cons_ne_nil _ _
  · intro sharedSecret matrixServer world req hm hu hpw
    have hp : 10 ≤ len (req.FormValue (gs "Password")) := by rw [hpw, h10]
    refine ⟨notice_of_valid sharedSecret matrixServer world req hm hu hp,
      macs_of_valid sharedSecret matrixServer world req hm hu hp, ?_⟩
    intro reqJson hj
    rw [← hpw] at hj
    exact posted_of_marshal_ok sharedSecret matrixServer world req reqJson hm hu hp hj

/-- C10, at the username "alice" and the password "ééééé": the user is
registered, after one MAC computation and one upstream call. -/
theorem password_length_counts_bytes_witness :
    "ééééé".length < 10
      ∧ (handler (gs "secret") (gs "https://example.org") (upstream 200 (gs ""))
          (postRequest (gs "alice") (gs "ééééé"))).1.Notice
        ≠ some (gs "Password must be 10+ chars")
      ∧ macs (handler (gs "secret") (gs "https://example.org") (upstream 200 (gs ""))
          (postRequest (gs "alice") (gs "ééééé"))).2 = [(gs "secret", gs "alice")]
      ∧ posted (handler (gs "secret") (gs "https://example.org") (upstream 200 (gs ""))
          (postRequest (gs "alice") (gs "ééééé"))).2
        = [registerURL (gs "https://example.org")] :=
  have h := password_length_counts_bytes.2.2.2 (gs "secret") (gs "https://example.org")
    (upstream 200 (gs "")) (postRequest (gs "alice") (gs "ééééé"))
    (by decide) (by decide) (by decide)
  ⟨by decide, h.1, h.2.1, h.2.2 (gs "json") rfl⟩

end SynapseBackregister
